import Mathlib

set_option maxRecDepth 100000

/-!
Shallow embedding of the morpho-apr interest accrual and reimbursement engine.

The definitions below translate the TypeScript services of the repository:
  * `src/backend/src/services/interestService.ts`   (borrower snapshot engine)
  * the vault supply service (`src/unnamed/part_001`)
  * `src/backend/src/services/reimbursementService.ts` (reimbursement lifecycle)
  * the Morpho rate-source client (`src/unnamed/part_002`, `getMarketState`)
  * the daily scheduler (`schedulerService.ts`, `runDailyInterestProcess`)
over the SQL schema of `src/unnamed/part_000` and the migrations
`004_vault_supply_tracking.sql` / `005_add_loan_asset_tracking.sql`.

Modelling conventions:
  * Numeric DECIMAL columns and parsed JS floats are modelled as `ℚ`.
    node-postgres returns DECIMAL columns as strings, and the services call
    `parseFloat` on them (for example `parseFloat(allocation.apr_cap)` and
    `parseFloat(position.current_debt)`); exact decimal strings parse exactly,
    so `ℚ` is faithful to the data-flow.
  * Calendar days (DATE columns, `CURRENT_DATE`, `NOW()` truncated to a day)
    are modelled as `Nat` day numbers; `DB.now` is the current day.
  * The remote Morpho GraphQL reply is the free input `RateResponse`;
    `getMarketState` translates it exactly as the client does (throwing, i.e.
    returning `Except.error`, on a GraphQL error or a null `marketByUniqueKey`).
  * `simulatePayment` draws randomness; it is modelled by an oracle
    `pay : Nat → Option String` giving, per reimbursement id, the transaction
    hash of a successful payment or `none` for a payment failure.
  * SQL `ORDER BY` is modelled with `List.insertionSort` (a stable sort, like
    PostgreSQL's ties-arbitrary ordering refined to a concrete choice).
-/

/-- Row of `markets` (part_000): only the columns the engine reads. -/
structure Market where
  market_id : String
  apr_cap : ℚ
  loan_asset : String
  deriving Repr, DecidableEq

/-- Row of `vaults`: only the primary key matters to the engine's joins. -/
structure Vault where
  id : Nat
  deriving Repr, DecidableEq

/-- Row of `vault_allocations` (part_000). -/
structure VaultAllocation where
  vault_id : Nat
  market_id : String
  supply_assets : ℚ
  deriving Repr, DecidableEq

/-- Row of `borrower_positions` (part_000).  The `borrower_id`/`vault_id`
owner columns are only projected into log strings by the modelled
operations, so they are omitted. -/
structure BorrowerPosition where
  id : Nat
  market_id : String
  current_debt : ℚ
  status : String
  deriving Repr, DecidableEq

/-- Row of `interest_snapshots` (part_000).  The table has no uniqueness
constraint on (position_id, snapshot_date); rows are plain inserts. -/
structure InterestSnapshotRow where
  position_id : Nat
  snapshot_date : Nat
  current_rate : ℚ
  capped_rate : ℚ
  interest_accrued : ℚ
  interest_above_cap : ℚ
  deriving Repr, DecidableEq

/-- Row of `vault_supply_snapshots` (migration 004), which is
`UNIQUE(vault_id, market_id, snapshot_date)`. -/
structure SupplySnapshotRow where
  vault_id : Nat
  market_id : String
  snapshot_date : Nat
  supply_amount : ℚ
  supply_apy : ℚ
  capped_apy : ℚ
  interest_earned : ℚ
  interest_above_cap : ℚ
  loan_asset : String
  deriving Repr, DecidableEq

/-- Reimbursement status column values. -/
inductive RStatus where
  | pending
  | completed
  | failed
  deriving Repr, DecidableEq

/-- Row of `reimbursements` (part_000). -/
structure ReimbursementRow where
  id : Nat
  position_id : Nat
  amount : ℚ
  period_start : Nat
  period_end : Nat
  status : RStatus
  tx_hash : Option String
  created_at : Nat
  processed_at : Option Nat
  deriving Repr, DecidableEq

/-- The persistent store state: the tables the engine reads and writes,
the next SERIAL id for `reimbursements`, and the current day. -/
structure DB where
  markets : List Market
  vaults : List Vault
  allocations : List VaultAllocation
  positions : List BorrowerPosition
  interest_snapshots : List InterestSnapshotRow
  supply_snapshots : List SupplySnapshotRow
  reimbursements : List ReimbursementRow
  next_reimb_id : Nat
  now : Nat
  deriving Repr, DecidableEq

/-- The `state` object of a Morpho `marketByUniqueKey` reply. -/
structure MState where
  borrowApy : ℚ
  supplyApy : ℚ
  deriving Repr, DecidableEq

/-- A non-null `marketByUniqueKey` object: the client only inspects `state`,
which GraphQL may return as null. -/
structure MarketData where
  state : Option MState
  deriving Repr, DecidableEq

/-- The remote GraphQL reply for one market, the free external input. -/
inductive RateResponse where
  | gqlError (msg : String)
  | notFound
  | ok (d : MarketData)
  deriving Repr

/-- `MorphoService.getMarketState` (part_002): throws on a GraphQL error and
on a null `marketByUniqueKey` ("No market data for marketId"), otherwise
returns the market object. -/
def getMarketState (resp : RateResponse) : Except String MarketData :=
  match resp with
  | .gqlError msg => .error ("GraphQL error: " ++ msg)
  | .notFound => .error "No market data for marketId"
  | .ok d => .ok d

/-- Daily simple interest: `principal * (annualRate / 365)`, exactly the
expression `parseFloat(position.current_debt) * dailyRate` with
`dailyRate = apy / 365`. -/
def dailyAccrued (principal rate : ℚ) : ℚ :=
  principal * (rate / 365)

/-- `Math.max(0, interestAccrued - cappedInterest)`. -/
def aboveCapAmount (principal rate cap : ℚ) : ℚ :=
  max 0 (dailyAccrued principal rate - dailyAccrued principal cap)

/-- Rounding to 6 decimals, returned in units of 10^-6 (the integer of
`x.toFixed(6)` without the decimal point). -/
def round6 (q : ℚ) : ℤ :=
  (q * 1000000 + 1 / 2).floor

/-- `InterestService.getCappedRate`: `SELECT apr_cap FROM markets WHERE
market_id = $1`, then `result.rows[0]?.apr_cap || 0.15`.  node-postgres
returns the DECIMAL column as a non-empty string, which is truthy even for
a stored zero, so the `|| 0.15` default fires only when the market row is
missing; the string is then numerically coerced by `cappedRate / 365`. -/
def getCappedRate (db : DB) (marketId : String) : ℚ :=
  match db.markets.find? (fun m => m.market_id == marketId) with
  | some m => m.apr_cap
  | none => 15 / 100

/-- `InterestService.saveInterestSnapshot`: a plain `INSERT INTO
interest_snapshots` with no `ON CONFLICT` clause (and the table has no
unique key on (position_id, snapshot_date)), hence an append. -/
def saveInterestSnapshot (db : DB) (row : InterestSnapshotRow) : DB :=
  { db with interest_snapshots := db.interest_snapshots ++ [row] }

/-- `InterestService.createReimbursement`: unconditional `INSERT INTO
reimbursements (position_id, amount, period_start, period_end, status)
VALUES ($1, $2, CURRENT_DATE - INTERVAL '1 day', CURRENT_DATE, 'pending')`;
`created_at` takes its column default of the current day. -/
def createReimbursement (db : DB) (positionId : Nat) (amount : ℚ) : DB :=
  { db with
    reimbursements := db.reimbursements ++
      [{ id := db.next_reimb_id
         position_id := positionId
         amount := amount
         period_start := db.now - 1
         period_end := db.now
         status := .pending
         tx_hash := none
         created_at := db.now
         processed_at := none }]
    next_reimb_id := db.next_reimb_id + 1 }

/-- `InterestService.updatePositionDebt`: `UPDATE borrower_positions SET
current_debt = $1 WHERE id = $2`. -/
def updatePositionDebt (db : DB) (positionId : Nat) (newDebt : ℚ) : DB :=
  { db with
    positions := db.positions.map (fun q =>
      if q.id = positionId then { q with current_debt := newDebt } else q) }

/-- `InterestService.checkRecentReimbursement`: counts reimbursements of the
position whose `DATE(created_at)` is the current day. -/
def checkRecentReimbursement (db : DB) (positionId : Nat) : Bool :=
  db.reimbursements.any (fun r =>
    r.position_id == positionId && r.created_at == db.now)

/-- The snapshot row `processPosition` builds for a position given the
market's `state` reply. -/
def interestSnapRow (db : DB) (position : BorrowerPosition) (st : MState) :
    InterestSnapshotRow :=
  { position_id := position.id
    snapshot_date := db.now
    current_rate := st.borrowApy
    capped_rate := getCappedRate db position.market_id
    interest_accrued := dailyAccrued position.current_debt st.borrowApy
    interest_above_cap :=
      aboveCapAmount position.current_debt st.borrowApy
        (getCappedRate db position.market_id) }

/-- The write phase of `processPosition` once a non-null market `state` is
in hand: insert the snapshot, insert a reimbursement when the excess is
positive, then write the compounded debt back from the prefetched
`position.current_debt`. -/
def processPositionOk (db : DB) (position : BorrowerPosition) (st : MState) : DB :=
  let interestAccrued := dailyAccrued position.current_debt st.borrowApy
  let interestAboveCap :=
    aboveCapAmount position.current_debt st.borrowApy
      (getCappedRate db position.market_id)
  let db1 := saveInterestSnapshot db (interestSnapRow db position st)
  let db2 :=
    if 0 < interestAboveCap then
      createReimbursement db1 position.id interestAboveCap
    else db1
  let newDebt := position.current_debt + interestAccrued
  updatePositionDebt db2 position.id newDebt

/-- `InterestService.processPosition`.  `getMarketState` may throw
(propagated as `Except.error`); a non-null reply with a null `state` logs a
warning and returns without writing; otherwise the write phase runs. -/
def processPosition (db : DB) (rates : String → RateResponse)
    (position : BorrowerPosition) : Except String DB :=
  match getMarketState (rates position.market_id) with
  | .error e => .error e
  | .ok marketData =>
    match marketData.state with
    | none => .ok db
    | some st => .ok (processPositionOk db position st)

/-- Ordering `borrower_positions` rows by id (`ORDER BY bp.id`). -/
def posIdLe (a b : BorrowerPosition) : Prop := a.id ≤ b.id

instance : DecidableRel posIdLe := fun a b => Nat.decLe a.id b.id

instance : IsTotal BorrowerPosition posIdLe := ⟨fun a b => Nat.le_total a.id b.id⟩

instance : IsTrans BorrowerPosition posIdLe := ⟨fun _ _ _ h h' => Nat.le_trans h h'⟩

/-- `InterestService.getActivePositions`: active positions joined with
`markets` (an inner join, so positions of unknown markets are dropped),
ordered by id.  The join's extra columns (`market_name`, `apr_cap`) are not
used by `processPosition`, which re-reads the cap. -/
def getActivePositions (db : DB) : List BorrowerPosition :=
  (db.positions.filter (fun p =>
      p.status == "active" && db.markets.any (fun m => m.market_id == p.market_id))
    ).insertionSort posIdLe

/-- Result of one borrower snapshot batch: the new store, the number of
positions processed without a thrown error, the number found, the number
with a reimbursement created today, and the per-item error logs. -/
structure BorrowerRun where
  db : DB
  processed : Nat
  total : Nat
  reimbursementsCreated : Nat
  errors : List String
  deriving Repr

/-- The per-position loop of `processDailySnapshot`: each item's error is
caught and logged, the batch continues. -/
def runPositions (rates : String → RateResponse) (db : DB) :
    List BorrowerPosition → DB × Nat × Nat × List String
  | [] => (db, 0, 0, [])
  | p :: ps =>
    match processPosition db rates p with
    | .error e =>
      let rest := runPositions rates db ps
      (rest.1, rest.2.1, rest.2.2.1,
        ("Error processing position " ++ toString p.id ++ ": " ++ e) :: rest.2.2.2)
    | .ok db1 =>
      let created := checkRecentReimbursement db1 p.id
      let rest := runPositions rates db1 ps
      (rest.1, rest.2.1 + 1,
        (if created then rest.2.2.1 + 1 else rest.2.2.1), rest.2.2.2)

/-- `InterestService.processDailySnapshot`: fetch the active positions once,
then process each with a per-item catch.  Recoverable per-item errors never
escape; the function always returns a summary. -/
def processDailySnapshot (db : DB) (rates : String → RateResponse) : BorrowerRun :=
  let positions := getActivePositions db
  let res := runPositions rates db positions
  { db := res.1
    processed := res.2.1
    total := positions.length
    reimbursementsCreated := res.2.2.1
    errors := res.2.2.2 }

/-- The key of a `vault_supply_snapshots` row, unique by migration 004. -/
def supplyKey (s : SupplySnapshotRow) : Nat × String × Nat :=
  (s.vault_id, s.market_id, s.snapshot_date)

/-- `VaultSupplyService.saveSupplySnapshot`: `INSERT ... ON CONFLICT
(vault_id, market_id, snapshot_date) DO UPDATE SET` every non-key column,
i.e. upsert keyed by `supplyKey`. -/
def saveSupplySnapshot (l : List SupplySnapshotRow) (row : SupplySnapshotRow) :
    List SupplySnapshotRow :=
  if l.any (fun s => supplyKey s == supplyKey row) then
    l.map (fun s => if supplyKey s == supplyKey row then row else s)
  else l ++ [row]

/-- `VaultSupplyService.getActiveVaultAllocations`: allocations with
`supply_assets > 0`, inner-joined with `vaults` and `markets`.  The join
contributes `m.apr_cap` and `m.loan_asset`, returned as the pair's market. -/
def getActiveVaultAllocations (db : DB) : List (VaultAllocation × Market) :=
  db.allocations.filterMap (fun a =>
    if 0 < a.supply_assets && db.vaults.any (fun v => v.id == a.vault_id) then
      (db.markets.find? (fun m => m.market_id == a.market_id)).map (fun m => (a, m))
    else none)

/-- The snapshot row `processAllocation` upserts for a joined allocation:
rate from the market's `supplyApy`, cap from the joined
`parseFloat(allocation.apr_cap)` (no default). -/
def supplySnapRow (db : DB) (row : VaultAllocation × Market) (st : MState) :
    SupplySnapshotRow :=
  { vault_id := row.1.vault_id
    market_id := row.1.market_id
    snapshot_date := db.now
    supply_amount := row.1.supply_assets
    supply_apy := st.supplyApy
    capped_apy := row.2.apr_cap
    interest_earned := dailyAccrued row.1.supply_assets st.supplyApy
    interest_above_cap := aboveCapAmount row.1.supply_assets st.supplyApy row.2.apr_cap
    loan_asset := row.2.loan_asset }

/-- `VaultSupplyService.processAllocation`: like the borrower path but the
cap comes from the joined row and the only write is the snapshot upsert —
`supply_assets` is not compounded. -/
def processAllocation (db : DB) (rates : String → RateResponse)
    (row : VaultAllocation × Market) : Except String DB :=
  match getMarketState (rates row.1.market_id) with
  | .error e => .error e
  | .ok marketData =>
    match marketData.state with
    | none => .ok db
    | some st =>
      .ok { db with
        supply_snapshots := saveSupplySnapshot db.supply_snapshots (supplySnapRow db row st) }

/-- The per-allocation loop of `processDailySupplySnapshots`: per-item catch,
returning the new store and the processed count. -/
def runAllocations (rates : String → RateResponse) (db : DB) :
    List (VaultAllocation × Market) → DB × Nat
  | [] => (db, 0)
  | a :: as' =>
    match processAllocation db rates a with
    | .error _ => runAllocations rates db as'
    | .ok db1 =>
      let rest := runAllocations rates db1 as'
      (rest.1, rest.2 + 1)

/-- Result of one vault supply batch. -/
structure SupplyRun where
  db : DB
  processed : Nat
  total : Nat
  deriving Repr

/-- `VaultSupplyService.processDailySupplySnapshots`. -/
def processDailySupplySnapshots (db : DB) (rates : String → RateResponse) : SupplyRun :=
  let allocations := getActiveVaultAllocations db
  let res := runAllocations rates db allocations
  { db := res.1, processed := res.2, total := allocations.length }

/-- `SchedulerService.runDailyInterestProcess`: STEP 1 vault supply
snapshots, STEP 2 borrower debt snapshots, over the same day. -/
def runDailyCycle (db : DB) (rates : String → RateResponse) : SupplyRun × BorrowerRun :=
  let s := processDailySupplySnapshots db rates
  (s, processDailySnapshot s.db rates)

/-- Does the list hold a reimbursement for this (position, day) with
`period_start = period_end = day`?  This is the existence check of
`createReimbursementEntries`. -/
def hasMatchingReimb (rs : List ReimbursementRow) (positionId day : Nat) : Prop :=
  ∃ r ∈ rs, r.position_id = positionId ∧ r.period_start = day ∧ r.period_end = day

instance (rs : List ReimbursementRow) (positionId day : Nat) :
    Decidable (hasMatchingReimb rs positionId day) :=
  List.decidableBEx _ rs

/-- The snapshot selection of `createReimbursementEntries`: interest
snapshots of the given day with `interest_above_cap > 0` whose position is
active (the inner joins with `borrower_positions` and `markets`; the
left-joined owner names are only logged). -/
def qualifyingSnapshots (snaps : List InterestSnapshotRow)
    (positions : List BorrowerPosition) (markets : List Market) (date : Nat) :
    List InterestSnapshotRow :=
  snaps.filter (fun s => decide (s.snapshot_date = date ∧ 0 < s.interest_above_cap ∧
    ∃ p ∈ positions, p.id = s.position_id ∧ p.status = "active" ∧
      ∃ m ∈ markets, m.market_id = p.market_id))

/-- The row `createReimbursementEntries` inserts for a qualifying snapshot:
`period_start = period_end =` the snapshot day, status pending, created
now. -/
def entryRowOf (now nid : Nat) (s : InterestSnapshotRow) : ReimbursementRow :=
  { id := nid
    position_id := s.position_id
    amount := s.interest_above_cap
    period_start := s.snapshot_date
    period_end := s.snapshot_date
    status := .pending
    tx_hash := none
    created_at := now
    processed_at := none }

/-- The per-snapshot loop of `createReimbursementEntries`, carried out
inside one transaction: the existence check sees the rows inserted earlier
in the same call.  Returns the reimbursement table, the next SERIAL id and
the created count. -/
def createEntriesLoop (now : Nat) : List InterestSnapshotRow →
    List ReimbursementRow → Nat → List ReimbursementRow × Nat × Nat
  | [], rs, nid => (rs, nid, 0)
  | s :: ss, rs, nid =>
    if hasMatchingReimb rs s.position_id s.snapshot_date then
      createEntriesLoop now ss rs nid
    else
      let rest := createEntriesLoop now ss (rs ++ [entryRowOf now nid s]) (nid + 1)
      (rest.1, rest.2.1, rest.2.2 + 1)

/-- `ReimbursementService.createReimbursementEntries(date)`: select the
day's qualifying snapshots, then insert a pending reimbursement with
`period_start = period_end = snapshot_date` for each one that has no
existing match.  Returns the created count. -/
def createReimbursementEntries (db : DB) (date : Nat) : DB × Nat :=
  let res := createEntriesLoop db.now
    (qualifyingSnapshots db.interest_snapshots db.positions db.markets date)
    db.reimbursements db.next_reimb_id
  ({ db with reimbursements := res.1, next_reimb_id := res.2.1 }, res.2.2)

/-- Ordering reimbursements by creation time ascending
(`ORDER BY r.created_at ASC`, oldest first). -/
def createdLe (a b : ReimbursementRow) : Prop := a.created_at ≤ b.created_at

instance : DecidableRel createdLe := fun a b => Nat.decLe a.created_at b.created_at

instance : IsTotal ReimbursementRow createdLe :=
  ⟨fun a b => Nat.le_total a.created_at b.created_at⟩

instance : IsTrans ReimbursementRow createdLe :=
  ⟨fun _ _ _ h h' => Nat.le_trans h h'⟩

/-- Ordering reimbursements by creation time descending
(`ORDER BY created_at DESC`, newest first). -/
def createdGe (a b : ReimbursementRow) : Prop := b.created_at ≤ a.created_at

instance : DecidableRel createdGe := fun a b => Nat.decLe b.created_at a.created_at

instance : IsTotal ReimbursementRow createdGe :=
  ⟨fun a b => Nat.le_total b.created_at a.created_at⟩

instance : IsTrans ReimbursementRow createdGe :=
  ⟨fun _ _ _ h h' => Nat.le_trans h' h⟩

/-- The pending selection of `processPendingReimbursements`: pending rows
whose position and market exist (inner joins), oldest first, first
`limit` rows. -/
def selectPending (db : DB) (limit : Nat) : List ReimbursementRow :=
  ((db.reimbursements.filter (fun r => decide (r.status = .pending ∧
      ∃ p ∈ db.positions, p.id = r.position_id ∧
        ∃ m ∈ db.markets, m.market_id = p.market_id))
    ).insertionSort createdLe).take limit

/-- One payment attempt of the processing loop: on a successful simulated
payment mark the row completed with the transaction hash and timestamp, on
a thrown payment error mark it failed with only the timestamp. -/
def applyPayment (db : DB) (pay : Nat → Option String) (r : ReimbursementRow) : DB :=
  match pay r.id with
  | some txHash =>
    { db with reimbursements := db.reimbursements.map (fun q =>
        if q.id = r.id then
          { q with status := .completed, tx_hash := some txHash,
                   processed_at := some db.now }
        else q) }
  | none =>
    { db with reimbursements := db.reimbursements.map (fun q =>
        if q.id = r.id then
          { q with status := .failed, processed_at := some db.now }
        else q) }

/-- The per-item loop of `processPendingReimbursements`: each payment
outcome is committed independently; a failure marks its own row failed and
the loop continues.  Returns the store with the processed and failed counts
and the total amount paid (summed from the selected rows' amounts). -/
def processLoop (pay : Nat → Option String) (db : DB) :
    List ReimbursementRow → DB × Nat × Nat × ℚ
  | [] => (db, 0, 0, 0)
  | r :: rs =>
    let db1 := applyPayment db pay r
    let rest := processLoop pay db1 rs
    match pay r.id with
    | some _ => (rest.1, rest.2.1 + 1, rest.2.2.1, rest.2.2.2 + r.amount)
    | none => (rest.1, rest.2.1, rest.2.2.1 + 1, rest.2.2.2)

/-- Result of `processPendingReimbursements`. -/
structure ProcessResult where
  db : DB
  processed : Nat
  failed : Nat
  totalAmount : ℚ
  deriving Repr

/-- `ReimbursementService.processPendingReimbursements(limit)`: select up to
`limit` oldest pending reimbursements, attempt each payment via the
`pay` oracle (standing in for `simulatePayment`), and return
`{processed, failed, totalAmount}`. -/
def processPendingReimbursements (db : DB) (pay : Nat → Option String)
    (limit : Nat) : ProcessResult :=
  let res := processLoop pay db (selectPending db limit)
  { db := res.1
    processed := res.2.1
    failed := res.2.2.1
    totalAmount := res.2.2.2 }

/-- The inner id selection of `retryFailedReimbursements`: failed rows
ordered by `created_at DESC`, first `limit`, projected to ids. -/
def retrySelectedIds (db : DB) (limit : Nat) : List Nat :=
  (((db.reimbursements.filter (fun r => decide (r.status = .failed))
    ).insertionSort createdGe).take limit).map (fun r => r.id)

/-- `ReimbursementService.retryFailedReimbursements(limit)`: one `UPDATE`
setting the selected failed rows back to pending with `tx_hash` and
`processed_at` cleared; `RETURNING id` makes the result the number of rows
actually updated.  No payment is attempted. -/
def retryFailedReimbursements (db : DB) (limit : Nat) : DB × Nat :=
  let ids := retrySelectedIds db limit
  let updated := db.reimbursements.map (fun r =>
    if r.status = .failed ∧ r.id ∈ ids then
      { r with status := .pending, tx_hash := none, processed_at := none }
    else r)
  let count := (db.reimbursements.filter (fun r =>
    decide (r.status = .failed ∧ r.id ∈ ids))).length
  ({ db with reimbursements := updated }, count)

/-! ## Concrete fixtures

Small concrete stores and rate replies used for counterexamples and
witnesses. -/

/-- A market with the 12% cap of the spec's worked example. -/
def exMarket : Market := { market_id := "m1", apr_cap := 12 / 100, loan_asset := "WETH" }

/-- One borrower position with 1000 debt in `exMarket` and one vault
allocation supplying 500 to it, day 10. -/
def exDB1 : DB :=
  { markets := [exMarket]
    vaults := [⟨1⟩]
    allocations := [{ vault_id := 1, market_id := "m1", supply_assets := 500 }]
    positions := [{ id := 1, market_id := "m1", current_debt := 1000, status := "active" }]
    interest_snapshots := []
    supply_snapshots := []
    reimbursements := []
    next_reimb_id := 1
    now := 10 }

/-- Rates: 18% borrow APY and 20% supply APY everywhere, both above the
12% cap. -/
def rates1 : String → RateResponse :=
  fun _ => .ok { state := some { borrowApy := 18 / 100, supplyApy := 20 / 100 } }

/-- A market whose stored `apr_cap` is negative. -/
def exDB3 : DB :=
  { markets := [{ market_id := "mneg", apr_cap := -(5 / 100), loan_asset := "USDC" }]
    vaults := []
    allocations := []
    positions := [{ id := 1, market_id := "mneg", current_debt := 1000, status := "active" }]
    interest_snapshots := []
    supply_snapshots := []
    reimbursements := []
    next_reimb_id := 1
    now := 10 }

/-- Rates for the negative-cap scenario: 10% borrow APY. -/
def rates3 : String → RateResponse :=
  fun _ => .ok { state := some { borrowApy := 10 / 100, supplyApy := 0 } }

/-- Twelve pending reimbursements (ids and creation days 1..12) over twelve
positions of one market, day 20. -/
def exDB4 : DB :=
  { markets := [exMarket]
    vaults := []
    allocations := []
    positions := (List.range 12).map (fun i =>
      { id := i + 1, market_id := "m1", current_debt := 100, status := "active" })
    interest_snapshots := []
    supply_snapshots := []
    reimbursements := (List.range 12).map (fun i =>
      { id := i + 1
        position_id := i + 1
        amount := 1
        period_start := 9
        period_end := 9
        status := .pending
        tx_hash := none
        created_at := i + 1
        processed_at := none })
    next_reimb_id := 13
    now := 20 }

/-- Payment oracle for the C4 scenario: the payment of reimbursement #7
throws, every other payment succeeds with hash "0xh<id>". -/
def pay4 : Nat → Option String :=
  fun id => if id == 7 then none else some ("0xh" ++ toString id)

/-- Three markets, three active positions, day 10. -/
def exDB5 : DB :=
  { markets := [exMarket,
      { market_id := "m2", apr_cap := 12 / 100, loan_asset := "USDC" },
      { market_id := "m3", apr_cap := 12 / 100, loan_asset := "WBTC" }]
    vaults := []
    allocations := []
    positions := [
      { id := 1, market_id := "m1", current_debt := 100, status := "active" },
      { id := 2, market_id := "m2", current_debt := 100, status := "active" },
      { id := 3, market_id := "m3", current_debt := 100, status := "active" }]
    interest_snapshots := []
    supply_snapshots := []
    reimbursements := []
    next_reimb_id := 1
    now := 10 }

/-- Rates for the C5 scenario: market `m3` is NotFound, the others have
data. -/
def rates5 : String → RateResponse :=
  fun mid => if mid == "m3" then .notFound
    else .ok { state := some { borrowApy := 5 / 100, supplyApy := 4 / 100 } }

/-- Two failed reimbursements: id 1 was created on day 1 and failed on
day 5; id 2 was created on day 2 and failed on day 3.  So id 1 is the most
recently failed, id 2 the most recently created. -/
def exDB9 : DB :=
  { markets := [exMarket]
    vaults := []
    allocations := []
    positions := [
      { id := 1, market_id := "m1", current_debt := 100, status := "active" },
      { id := 2, market_id := "m1", current_debt := 100, status := "active" }]
    interest_snapshots := []
    supply_snapshots := []
    reimbursements := [
      { id := 1, position_id := 1, amount := 3, period_start := 1, period_end := 1,
        status := .failed, tx_hash := none, created_at := 1, processed_at := some 5 },
      { id := 2, position_id := 2, amount := 4, period_start := 2, period_end := 2,
        status := .failed, tx_hash := none, created_at := 2, processed_at := some 3 }]
    next_reimb_id := 3
    now := 10 }

/-! ## Claim theorems -/

/-- Claim C1, counterexample: running the daily cycle twice for day 10 on
`exDB1` leaves TWO `interest_snapshots` rows for (position 1, market m1,
day 10), not one — `saveInterestSnapshot` is a plain insert, not an upsert,
so the claim is false for borrower interest snapshots. -/
theorem C1_counterexample :
    ((runDailyCycle (runDailyCycle exDB1 rates1).2.db rates1).2.db.interest_snapshots.filter
      (fun s => s.position_id == 1 && s.snapshot_date == 10)).length = 2 ∧
    ((runDailyCycle (runDailyCycle exDB1 rates1).2.db rates1).2.db.interest_snapshots.filter
      (fun s => s.position_id == 1 && s.snapshot_date == 10)).length ≠ 1 := by
  with_unfolding_all decide

/-- Claim C2, counterexample: the Snapshot Engine's inline creation path
(`InterestService.createReimbursement`) inserts a reimbursement whose
`period_start` (day 9) differs from `period_end` (day 10) — not
`period_start = period_end =` the snapshot day — and running the engine a
second time inserts a second reimbursement for the same position and day
because this path performs no existence check. -/
theorem C2_counterexample :
    ((processDailySnapshot exDB1 rates1).db.reimbursements.map
      (fun r => (r.position_id, r.period_start, r.period_end))) = [(1, 9, 10)] ∧ (9 : Nat) ≠ 10 ∧
    ((processDailySnapshot (processDailySnapshot exDB1 rates1).db rates1).db.reimbursements.map
      (fun r => r.position_id)) = [1, 1] := by
  with_unfolding_all decide

/-- Claim C3, counterexample: for a market with a stored negative
`apr_cap` (-5%) and a position with debt 1000 at a 10% rate, the engine
records `interestAccrued = 20/73` but `interestAboveCap = 30/73` — the
position is NOT treated as always-above-cap (`interestAboveCap ≠
interestAccrued`; the negative cap makes the excess exceed the accrual). -/
theorem C3_counterexample :
    ((processDailySnapshot exDB3 rates3).db.interest_snapshots.map
      (fun s => (s.interest_accrued, s.interest_above_cap))) = [(20/73, 30/73)] ∧
    (20/73 : ℚ) ≠ 30/73 := by
  with_unfolding_all decide

/-- Claim C4, counterexample: `processPendingReimbursements(limit = 10)` on
a store with 12 pending reimbursements where the payment of selected item
#7 fails returns `{processed: 9, failed: 1}` — not `{processed: 11,
failed: 1}` — because the SQL `LIMIT` selects only the 10 oldest pending
rows. -/
theorem C4_counterexample :
    (processPendingReimbursements exDB4 pay4 10).processed = 9 ∧
    (processPendingReimbursements exDB4 pay4 10).processed ≠ 11 ∧
    (processPendingReimbursements exDB4 pay4 10).failed = 1 := by
  with_unfolding_all decide

/-- Claim C4 as amended: with limit 10 and 12 pending reimbursements, only
the 10 oldest are selected; when the payment of selected item #7 throws,
the call returns `{processed: 9, failed: 1}`; item #7 ends `failed` with no
payment reference, the other nine selected items end `completed` with
distinct payment references, items #11 and #12 stay `pending`, and the one
failure rolls back none of the completions. -/
theorem C4_amended_process_scenario :
    (processPendingReimbursements exDB4 pay4 10).processed = 9 ∧
    (processPendingReimbursements exDB4 pay4 10).failed = 1 ∧
    ((processPendingReimbursements exDB4 pay4 10).db.reimbursements.filter
      (fun r => r.status == .completed)).map (fun r => r.id) = [1, 2, 3, 4, 5, 6, 8, 9, 10] ∧
    ((processPendingReimbursements exDB4 pay4 10).db.reimbursements.filter
      (fun r => r.status == .failed)).map (fun r => (r.id, r.tx_hash)) = [(7, none)] ∧
    ((processPendingReimbursements exDB4 pay4 10).db.reimbursements.filter
      (fun r => r.status == .pending)).map (fun r => r.id) = [11, 12] ∧
    (((processPendingReimbursements exDB4 pay4 10).db.reimbursements.filter
      (fun r => r.status == .completed)).filterMap (fun r => r.tx_hash)).Nodup := by
  with_unfolding_all decide

/-- Claim C5: with three active positions in three markets and the Rate
Source returning NotFound for the third market, the daily snapshot batch
returns normally (the per-item catch swallows the thrown lookup error),
reports 2 of 3 positions processed, and logs exactly the one skip for the
position in the third market. -/
theorem C5_rate_notfound_scenario :
    (processDailySnapshot exDB5 rates5).processed = 2 ∧
    (processDailySnapshot exDB5 rates5).total = 3 ∧
    (processDailySnapshot exDB5 rates5).errors =
      ["Error processing position 3: No market data for marketId"] := by
  with_unfolding_all decide

/-! ## Lemmas about processPosition -/

/-- With a non-null market state reply, `processPosition` succeeds with the
write phase. -/
theorem processPosition_eq_ok (db : DB) (rates : String → RateResponse)
    (p : BorrowerPosition) (st : MState)
    (hr : rates p.market_id = RateResponse.ok { state := some st }) :
    processPosition db rates p = .ok (processPositionOk db p st) := by
  simp [processPosition, getMarketState, hr]

theorem processPositionOk_interest_snapshots (db : DB) (p : BorrowerPosition) (st : MState) :
    (processPositionOk db p st).interest_snapshots =
      db.interest_snapshots ++ [interestSnapRow db p st] := by
  simp only [processPositionOk, updatePositionDebt, createReimbursement, saveInterestSnapshot]
  split <;> rfl

/-- The inline reimbursement row `processPosition` inserts when the excess
is positive. -/
def inlineReimbRow (db : DB) (p : BorrowerPosition) (st : MState) : ReimbursementRow :=
  { id := db.next_reimb_id
    position_id := p.id
    amount := aboveCapAmount p.current_debt st.borrowApy (getCappedRate db p.market_id)
    period_start := db.now - 1
    period_end := db.now
    status := .pending
    tx_hash := none
    created_at := db.now
    processed_at := none }

theorem processPositionOk_reimbursements (db : DB) (p : BorrowerPosition) (st : MState) :
    (processPositionOk db p st).reimbursements =
      if 0 < aboveCapAmount p.current_debt st.borrowApy (getCappedRate db p.market_id) then
        db.reimbursements ++ [inlineReimbRow db p st]
      else db.reimbursements := by
  simp only [processPositionOk, updatePositionDebt, createReimbursement, saveInterestSnapshot,
    inlineReimbRow]
  split <;> rfl

theorem processPositionOk_positions (db : DB) (p : BorrowerPosition) (st : MState) :
    (processPositionOk db p st).positions = db.positions.map (fun q =>
      if q.id = p.id then
        { q with current_debt :=
            p.current_debt + dailyAccrued p.current_debt st.borrowApy }
      else q) := by
  simp only [processPositionOk, updatePositionDebt, createReimbursement, saveInterestSnapshot]
  split <;> rfl

theorem processPositionOk_frame (db : DB) (p : BorrowerPosition) (st : MState) :
    (processPositionOk db p st).markets = db.markets ∧
    (processPositionOk db p st).vaults = db.vaults ∧
    (processPositionOk db p st).allocations = db.allocations ∧
    (processPositionOk db p st).supply_snapshots = db.supply_snapshots ∧
    (processPositionOk db p st).now = db.now := by
  simp only [processPositionOk, updatePositionDebt, createReimbursement, saveInterestSnapshot]
  split <;> exact ⟨rfl, rfl, rfl, rfl, rfl⟩

/-- Case analysis on a successful `processPosition`: either the state was
null (no write) or the write phase ran for some market state. -/
theorem processPosition_ok_cases (db db' : DB) (rates : String → RateResponse)
    (p : BorrowerPosition) (h : processPosition db rates p = .ok db') :
    db' = db ∨ ∃ st, rates p.market_id = RateResponse.ok { state := some st } ∧
      db' = processPositionOk db p st := by
  unfold processPosition getMarketState at h
  rcases hr : rates p.market_id with msg | _ | d
  · rw [hr] at h; exact absurd h (by simp)
  · rw [hr] at h; exact absurd h (by simp)
  · rcases d with ⟨_ | st⟩
    · rw [hr] at h
      simp only [Except.ok.injEq] at h
      exact Or.inl h.symm
    · rw [hr] at h
      simp only [Except.ok.injEq] at h
      exact Or.inr ⟨st, rfl, h.symm⟩

theorem getCappedRate_found (db : DB) (p : BorrowerPosition) (m : Market)
    (hm : db.markets.find? (fun x => x.market_id == p.market_id) = some m) :
    getCappedRate db p.market_id = m.apr_cap := by
  unfold getCappedRate
  rw [hm]

/-- Claim C6: for a market with `apr_cap = c` and a position with principal
`p.current_debt` and observed rate `st.borrowApy`, the engine writes the
snapshot `interestSnapRow` with `interest_accrued = debt * rate / 365` and
`interest_above_cap = max 0 (debt * (rate - c) / 365)`; at debt 1000, rate
0.18 and cap 0.12 the values round (6 decimals) to 0.493151 and 0.164384. -/
theorem C6_accrual_formula (db : DB) (rates : String → RateResponse)
    (p : BorrowerPosition) (m : Market) (st : MState)
    (hm : db.markets.find? (fun x => x.market_id == p.market_id) = some m)
    (hr : rates p.market_id = RateResponse.ok { state := some st }) :
    processPosition db rates p = .ok (processPositionOk db p st) ∧
    (processPositionOk db p st).interest_snapshots =
      db.interest_snapshots ++ [interestSnapRow db p st] ∧
    (interestSnapRow db p st).interest_accrued = p.current_debt * st.borrowApy / 365 ∧
    (interestSnapRow db p st).interest_above_cap =
      max 0 (p.current_debt * (st.borrowApy - m.apr_cap) / 365) ∧
    round6 (dailyAccrued 1000 (18 / 100)) = 493151 ∧
    round6 (aboveCapAmount 1000 (18 / 100) (12 / 100)) = 164384 := by
  refine ⟨processPosition_eq_ok db rates p st hr,
    processPositionOk_interest_snapshots db p st, ?_, ?_, ?_, ?_⟩
  · simp only [interestSnapRow, dailyAccrued]
    ring
  · simp only [interestSnapRow, aboveCapAmount, dailyAccrued, getCappedRate_found db p m hm]
    congr 1
    ring
  · with_unfolding_all decide
  · with_unfolding_all decide

/-- Claim C3 as amended: with the stored cap in effect (node-postgres
returns it as a truthy string), a market with `apr_cap = 0` and nonnegative
debt and rate gives `interestAboveCap = interestAccrued`; a market with
`apr_cap < 0` and positive debt gives `interestAboveCap = interestAccrued +
debt * (-apr_cap) / 365`, strictly greater than `interestAccrued` — not
equal to it. -/
theorem C3_amended_cap_edge (db : DB) (rates : String → RateResponse)
    (p : BorrowerPosition) (m : Market) (st : MState)
    (hm : db.markets.find? (fun x => x.market_id == p.market_id) = some m)
    (hr : rates p.market_id = RateResponse.ok { state := some st }) :
    processPosition db rates p = .ok (processPositionOk db p st) ∧
    (m.apr_cap = 0 → 0 ≤ p.current_debt → 0 ≤ st.borrowApy →
      (interestSnapRow db p st).interest_above_cap =
        (interestSnapRow db p st).interest_accrued) ∧
    (m.apr_cap < 0 → 0 < p.current_debt → 0 ≤ st.borrowApy →
      (interestSnapRow db p st).interest_above_cap =
        (interestSnapRow db p st).interest_accrued + p.current_debt * (-m.apr_cap) / 365 ∧
      (interestSnapRow db p st).interest_accrued <
        (interestSnapRow db p st).interest_above_cap) := by
  refine ⟨processPosition_eq_ok db rates p st hr, ?_, ?_⟩
  · intro hc hd hrate
    simp only [interestSnapRow, aboveCapAmount, dailyAccrued, getCappedRate_found db p m hm,
      hc, zero_div, mul_zero, sub_zero]
    exact max_eq_right (mul_nonneg hd (div_nonneg hrate (by norm_num)))
  · intro hc hd hrate
    have hcap : p.current_debt * (m.apr_cap / 365) < 0 :=
      mul_neg_of_pos_of_neg hd (div_neg_of_neg_of_pos hc (by norm_num))
    have hacc : (0:ℚ) ≤ p.current_debt * (st.borrowApy / 365) :=
      mul_nonneg hd.le (div_nonneg hrate (by norm_num))
    simp only [interestSnapRow, aboveCapAmount, dailyAccrued, getCappedRate_found db p m hm]
    constructor
    · rw [max_eq_right (by linarith)]
      ring
    · rw [max_eq_right (by linarith)]
      linarith

/-- Witness for C6: the hypotheses hold at the concrete fixture and the
theorem yields the rounded example values. -/
theorem C6_accrual_formula_witness :
    exDB1.markets.find?
      (fun x => x.market_id == (⟨1, "m1", 1000, "active"⟩ : BorrowerPosition).market_id) =
        some exMarket ∧
    rates1 (⟨1, "m1", 1000, "active"⟩ : BorrowerPosition).market_id =
      RateResponse.ok { state := some ⟨18 / 100, 20 / 100⟩ } ∧
    round6 (dailyAccrued 1000 (18 / 100)) = 493151 :=
  ⟨by with_unfolding_all decide, rfl,
    (C6_accrual_formula exDB1 rates1 ⟨1, "m1", 1000, "active"⟩ exMarket ⟨18 / 100, 20 / 100⟩
      (by with_unfolding_all decide) rfl).2.2.2.2.1⟩

/-- Witness for C3 as amended: the hypotheses hold at the negative-cap
fixture and the excess strictly exceeds the accrual there. -/
theorem C3_amended_cap_edge_witness :
    exDB3.markets.find?
      (fun x => x.market_id == (⟨1, "mneg", 1000, "active"⟩ : BorrowerPosition).market_id) =
        some { market_id := "mneg", apr_cap := -(5 / 100), loan_asset := "USDC" } ∧
    rates3 (⟨1, "mneg", 1000, "active"⟩ : BorrowerPosition).market_id =
      RateResponse.ok { state := some ⟨10 / 100, 0⟩ } ∧
    (-(5 / 100) : ℚ) < 0 ∧ (0:ℚ) < 1000 ∧ (0:ℚ) ≤ 10 / 100 ∧
    (interestSnapRow exDB3 ⟨1, "mneg", 1000, "active"⟩ ⟨10 / 100, 0⟩).interest_accrued <
      (interestSnapRow exDB3 ⟨1, "mneg", 1000, "active"⟩ ⟨10 / 100, 0⟩).interest_above_cap := by
  refine ⟨by with_unfolding_all decide, rfl, by norm_num, by norm_num, by norm_num, ?_⟩
  exact ((C3_amended_cap_edge exDB3 rates3 ⟨1, "mneg", 1000, "active"⟩
      { market_id := "mneg", apr_cap := -(5 / 100), loan_asset := "USDC" } ⟨10 / 100, 0⟩
      (by with_unfolding_all decide) rfl).2.2 (by norm_num) (by norm_num) (by norm_num)).2

/-! ## Lemmas about createReimbursementEntries -/

theorem hasMatchingReimb_append (rs t : List ReimbursementRow) (pid d : Nat)
    (h : hasMatchingReimb rs pid d) : hasMatchingReimb (rs ++ t) pid d := by
  obtain ⟨r, hr, hp⟩ := h
  exact ⟨r, List.mem_append_left _ hr, hp⟩

/-- Shape of the rows added by `createEntriesLoop`: the result extends the
input, and every added row comes from a processed snapshot, with
`period_start = period_end =` its snapshot day, and was absent (as a
(position, day) match) from the original table. -/
theorem createEntriesLoop_spec (now : Nat) (ss : List InterestSnapshotRow) :
    ∀ (rs : List ReimbursementRow) (nid : Nat),
    ∃ t, (createEntriesLoop now ss rs nid).1 = rs ++ t ∧
      ∀ r ∈ t, (∃ s ∈ ss, ∃ k, r = entryRowOf now k s) ∧
        ¬ hasMatchingReimb rs r.position_id r.period_start := by
  induction ss with
  | nil =>
    intro rs nid
    exact ⟨[], by simp [createEntriesLoop], by simp⟩
  | cons s ss ih =>
    intro rs nid
    by_cases h : hasMatchingReimb rs s.position_id s.snapshot_date
    · obtain ⟨t, ht, hprop⟩ := ih rs nid
      refine ⟨t, by simp [createEntriesLoop, h, ht], fun r hr => ?_⟩
      obtain ⟨⟨s', hs', hrow⟩, habs⟩ := hprop r hr
      exact ⟨⟨s', List.mem_cons_of_mem _ hs', hrow⟩, habs⟩
    · obtain ⟨t', ht', hprop'⟩ := ih (rs ++ [entryRowOf now nid s]) (nid + 1)
      refine ⟨entryRowOf now nid s :: t', ?_, fun r hr => ?_⟩
      · simp only [createEntriesLoop, h, if_false]
        rw [ht']
        simp
      · rcases List.mem_cons.mp hr with hr | hr
        · subst hr
          exact ⟨⟨s, List.mem_cons_self _ _, nid, rfl⟩, h⟩
        · obtain ⟨⟨s', hs', hrow⟩, habs⟩ := hprop' r hr
          exact ⟨⟨s', List.mem_cons_of_mem _ hs', hrow⟩,
            fun hc => habs (hasMatchingReimb_append _ _ _ _ hc)⟩

/-- After the loop, every processed snapshot has a matching reimbursement
in the result. -/
theorem createEntriesLoop_post (now : Nat) (ss : List InterestSnapshotRow) :
    ∀ (rs : List ReimbursementRow) (nid : Nat), ∀ s ∈ ss,
      hasMatchingReimb (createEntriesLoop now ss rs nid).1 s.position_id s.snapshot_date := by
  induction ss with
  | nil => intro rs nid s hs; exact absurd hs (List.not_mem_nil s)
  | cons s' ss ih =>
    intro rs nid s hs
    by_cases h : hasMatchingReimb rs s'.position_id s'.snapshot_date
    · rcases List.mem_cons.mp hs with hseq | hs
      · subst hseq
        obtain ⟨t, ht, _⟩ := createEntriesLoop_spec now ss rs nid
        simp only [createEntriesLoop, h, if_true, ht]
        exact hasMatchingReimb_append _ _ _ _ h
      · simpa [createEntriesLoop, h] using ih rs nid s hs
    · have hrow : hasMatchingReimb (rs ++ [entryRowOf now nid s'])
          s'.position_id s'.snapshot_date :=
        ⟨entryRowOf now nid s', List.mem_append_right _ (List.mem_singleton_self _),
          rfl, rfl, rfl⟩
      rcases List.mem_cons.mp hs with hseq | hs
      · subst hseq
        obtain ⟨t, ht, _⟩ := createEntriesLoop_spec now ss
          (rs ++ [entryRowOf now nid s]) (nid + 1)
        simp only [createEntriesLoop, h, if_false, ht]
        exact hasMatchingReimb_append _ _ _ _ hrow
      · simpa [createEntriesLoop, h] using ih _ (nid + 1) s hs

/-- When every processed snapshot already has a match, the loop is a no-op
creating zero rows. -/
theorem createEntriesLoop_all_match (now : Nat) (ss : List InterestSnapshotRow) :
    ∀ (rs : List ReimbursementRow) (nid : Nat),
      (∀ s ∈ ss, hasMatchingReimb rs s.position_id s.snapshot_date) →
      createEntriesLoop now ss rs nid = (rs, nid, 0) := by
  induction ss with
  | nil => intro rs nid _; rfl
  | cons s ss ih =>
    intro rs nid h
    have hs := h s (List.mem_cons_self _ _)
    simp only [createEntriesLoop, hs, if_true]
    exact ih rs nid (fun s' hs' => h s' (List.mem_cons_of_mem _ hs'))

/-- Claim C7: a second `createReimbursementEntries` call for the same day
on the unchanged store inserts zero new rows and returns a created count
of 0. -/
theorem C7_create_idempotent (db : DB) (date : Nat) :
    createReimbursementEntries (createReimbursementEntries db date).1 date =
      ((createReimbursementEntries db date).1, 0) := by
  unfold createReimbursementEntries
  have hpost := createEntriesLoop_post db.now
    (qualifyingSnapshots db.interest_snapshots db.positions db.markets date)
    db.reimbursements db.next_reimb_id
  rw [createEntriesLoop_all_match _ _ _ _ hpost]

/-- Claim C2 as amended: every row `createReimbursementEntries` adds is for
a (position, day) pair whose day-snapshot has `interest_above_cap > 0` on
an active position, has `period_start = period_end =` that day, and is
inserted only when the store held no matching (position, day) reimbursement.
The Snapshot Engine's inline path instead inserts unconditionally (no
existence check) a row with `period_start = day - 1` and
`period_end = day` whenever the excess is positive. -/
theorem C2_amended_creation (db : DB) (date : Nat) :
    (∃ t, (createReimbursementEntries db date).1.reimbursements = db.reimbursements ++ t ∧
      ∀ r ∈ t, r.status = .pending ∧ r.period_start = date ∧ r.period_end = date ∧
        0 < r.amount ∧
        (∃ s ∈ db.interest_snapshots, s.snapshot_date = date ∧
          s.position_id = r.position_id ∧ s.interest_above_cap = r.amount ∧
          ∃ p ∈ db.positions, p.id = s.position_id ∧ p.status = "active") ∧
        ¬ hasMatchingReimb db.reimbursements r.position_id date) ∧
    (∀ (rates : String → RateResponse) (p : BorrowerPosition) (st : MState),
      rates p.market_id = RateResponse.ok { state := some st } →
      0 < aboveCapAmount p.current_debt st.borrowApy (getCappedRate db p.market_id) →
      processPosition db rates p = .ok (processPositionOk db p st) ∧
      (processPositionOk db p st).reimbursements =
        db.reimbursements ++ [inlineReimbRow db p st] ∧
      (inlineReimbRow db p st).period_start = db.now - 1 ∧
      (inlineReimbRow db p st).period_end = db.now) := by
  constructor
  · obtain ⟨t, ht, hprop⟩ := createEntriesLoop_spec db.now
      (qualifyingSnapshots db.interest_snapshots db.positions db.markets date)
      db.reimbursements db.next_reimb_id
    refine ⟨t, ht, fun r hr => ?_⟩
    obtain ⟨⟨s, hs, k, hrow⟩, habs⟩ := hprop r hr
    obtain ⟨hsmem, hsprop⟩ := List.mem_filter.mp hs
    rw [decide_eq_true_eq] at hsprop
    obtain ⟨hdate, hpos, p, hp, hpid, hpact, _⟩ := hsprop
    subst hrow
    refine ⟨rfl, hdate, hdate, hpos, ⟨s, hsmem, hdate, rfl, rfl, p, hp, hpid, hpact⟩, ?_⟩
    simpa [entryRowOf, hdate] using habs
  · intro rates p st hr hpos
    exact ⟨processPosition_eq_ok db rates p st hr,
      by rw [processPositionOk_reimbursements, if_pos hpos], rfl, rfl⟩

/-- Witness for C2 as amended: the hypotheses of the inline-path part hold
at the concrete fixture, where the inserted row's period is [day 9, day
10]. -/
theorem C2_amended_creation_witness :
    rates1 (⟨1, "m1", 1000, "active"⟩ : BorrowerPosition).market_id =
      RateResponse.ok { state := some ⟨18 / 100, 20 / 100⟩ } ∧
    0 < aboveCapAmount (1000 : ℚ) (18 / 100)
      (getCappedRate exDB1 (⟨1, "m1", 1000, "active"⟩ : BorrowerPosition).market_id) ∧
    (inlineReimbRow exDB1 ⟨1, "m1", 1000, "active"⟩ ⟨18 / 100, 20 / 100⟩).period_start =
      exDB1.now - 1 := by
  refine ⟨rfl, by with_unfolding_all decide, ?_⟩
  exact ((C2_amended_creation exDB1 10).2 rates1 ⟨1, "m1", 1000, "active"⟩
    ⟨18 / 100, 20 / 100⟩ rfl (by with_unfolding_all decide)).2.2.1

/-! ## Membership and frame lemmas for the batch loops -/

theorem interestSnapRow_above_nonneg (db : DB) (p : BorrowerPosition) (st : MState) :
    0 ≤ (interestSnapRow db p st).interest_above_cap :=
  le_max_left 0 _

theorem supplySnapRow_above_nonneg (db : DB) (row : VaultAllocation × Market) (st : MState) :
    0 ≤ (supplySnapRow db row st).interest_above_cap :=
  le_max_left 0 _

theorem runPositions_snaps_nonneg (rates : String → RateResponse)
    (ps : List BorrowerPosition) : ∀ db : DB,
    ∀ s ∈ (runPositions rates db ps).1.interest_snapshots,
      s ∈ db.interest_snapshots ∨ 0 ≤ s.interest_above_cap := by
  induction ps with
  | nil => intro db s hs; exact Or.inl hs
  | cons p ps ih =>
    intro db s hs
    cases hp : processPosition db rates p with
    | error e =>
      simp only [runPositions, hp] at hs
      exact ih db s hs
    | ok db1 =>
      simp only [runPositions, hp] at hs
      rcases ih db1 s hs with h1 | h1
      · rcases processPosition_ok_cases db db1 rates p hp with rfl | ⟨st, _, rfl⟩
        · exact Or.inl h1
        · rw [processPositionOk_interest_snapshots] at h1
          rcases List.mem_append.mp h1 with h2 | h2
          · exact Or.inl h2
          · rw [List.mem_singleton.mp h2]
            exact Or.inr (interestSnapRow_above_nonneg db p st)
      · exact Or.inr h1

theorem runPositions_reimbs_pos (rates : String → RateResponse)
    (ps : List BorrowerPosition) : ∀ db : DB,
    ∀ r ∈ (runPositions rates db ps).1.reimbursements,
      r ∈ db.reimbursements ∨ 0 < r.amount := by
  induction ps with
  | nil => intro db r hr; exact Or.inl hr
  | cons p ps ih =>
    intro db r hr
    cases hp : processPosition db rates p with
    | error e =>
      simp only [runPositions, hp] at hr
      exact ih db r hr
    | ok db1 =>
      simp only [runPositions, hp] at hr
      rcases ih db1 r hr with h1 | h1
      · rcases processPosition_ok_cases db db1 rates p hp with rfl | ⟨st, _, rfl⟩
        · exact Or.inl h1
        · rw [processPositionOk_reimbursements] at h1
          split at h1
          · rcases List.mem_append.mp h1 with h2 | h2
            · exact Or.inl h2
            · rw [List.mem_singleton.mp h2]
              right
              assumption
          · exact Or.inl h1
      · exact Or.inr h1

theorem saveSupplySnapshot_mem (l : List SupplySnapshotRow) (row s : SupplySnapshotRow)
    (hs : s ∈ saveSupplySnapshot l row) : s ∈ l ∨ s = row := by
  unfold saveSupplySnapshot at hs
  split at hs
  · obtain ⟨x, hx, hxs⟩ := List.mem_map.mp hs
    by_cases hk : supplyKey x == supplyKey row
    · rw [hk] at hxs
      simp at hxs
      exact Or.inr hxs.symm
    · rw [if_neg hk] at hxs
      exact Or.inl (hxs ▸ hx)
  · rcases List.mem_append.mp hs with h | h
    · exact Or.inl h
    · exact Or.inr (List.mem_singleton.mp h)

theorem runAllocations_supply_nonneg (rates : String → RateResponse)
    (as' : List (VaultAllocation × Market)) : ∀ db : DB,
    ∀ s ∈ (runAllocations rates db as').1.supply_snapshots,
      s ∈ db.supply_snapshots ∨ 0 ≤ s.interest_above_cap := by
  induction as' with
  | nil => intro db s hs; exact Or.inl hs
  | cons a as' ih =>
    intro db s hs
    cases ha : processAllocation db rates a with
    | error e =>
      simp only [runAllocations, ha] at hs
      exact ih db s hs
    | ok db1 =>
      simp only [runAllocations, ha] at hs
      rcases ih db1 s hs with h1 | h1
      · unfold processAllocation getMarketState at ha
        rcases hr : rates a.1.market_id with msg | _ | d
        · rw [hr] at ha; exact absurd ha (by simp)
        · rw [hr] at ha; exact absurd ha (by simp)
        · rcases d with ⟨_ | st⟩ <;> rw [hr] at ha <;>
            simp only [Except.ok.injEq] at ha
          · exact Or.inl (ha ▸ h1)
          · rw [← ha] at h1
            rcases saveSupplySnapshot_mem _ _ _ h1 with h2 | h2
            · exact Or.inl h2
            · rw [h2]
              exact Or.inr (supplySnapRow_above_nonneg db a st)
      · exact Or.inr h1

/-- Case analysis on a successful `processAllocation`: either the state was
null (no write) or the snapshot was upserted. -/
theorem processAllocation_ok_cases (db db' : DB) (rates : String → RateResponse)
    (a : VaultAllocation × Market) (h : processAllocation db rates a = .ok db') :
    db' = db ∨ ∃ st, rates a.1.market_id = RateResponse.ok { state := some st } ∧
      db' = { db with supply_snapshots :=
        saveSupplySnapshot db.supply_snapshots (supplySnapRow db a st) } := by
  unfold processAllocation getMarketState at h
  rcases hr : rates a.1.market_id with msg | _ | d
  · rw [hr] at h; exact absurd h (by simp)
  · rw [hr] at h; exact absurd h (by simp)
  · rcases d with ⟨_ | st⟩ <;> rw [hr] at h <;> simp only [Except.ok.injEq] at h
    · exact Or.inl h.symm
    · exact Or.inr ⟨st, rfl, h.symm⟩

/-- Claim C10: every interest or supply snapshot the engine writes has
`interest_above_cap ≥ 0` (both are `Math.max(0, ...)`), and every
reimbursement row created by either creation path has a positive amount
(both paths guard on `interest_above_cap > 0`). -/
theorem C10_nonneg_invariants (db : DB) (rates : String → RateResponse) (date : Nat) :
    (∀ s ∈ (processDailySnapshot db rates).db.interest_snapshots,
      s ∈ db.interest_snapshots ∨ 0 ≤ s.interest_above_cap) ∧
    (∀ s ∈ (processDailySupplySnapshots db rates).db.supply_snapshots,
      s ∈ db.supply_snapshots ∨ 0 ≤ s.interest_above_cap) ∧
    (∀ r ∈ (processDailySnapshot db rates).db.reimbursements,
      r ∈ db.reimbursements ∨ 0 < r.amount) ∧
    (∀ r ∈ (createReimbursementEntries db date).1.reimbursements,
      r ∈ db.reimbursements ∨ 0 < r.amount) := by
  refine ⟨fun s hs => ?_, fun s hs => ?_, fun r hr => ?_, fun r hr => ?_⟩
  · exact runPositions_snaps_nonneg rates (getActivePositions db) db s hs
  · exact runAllocations_supply_nonneg rates (getActiveVaultAllocations db) db s hs
  · exact runPositions_reimbs_pos rates (getActivePositions db) db r hr
  · obtain ⟨t, ht, hprop⟩ := createEntriesLoop_spec db.now
      (qualifyingSnapshots db.interest_snapshots db.positions db.markets date)
      db.reimbursements db.next_reimb_id
    replace hr : r ∈ db.reimbursements ++ t := by
      simpa only [createReimbursementEntries, ht] using hr
    rcases List.mem_append.mp hr with h | h
    · exact Or.inl h
    · obtain ⟨⟨s, hs, k, hrow⟩, _⟩ := hprop r h
      obtain ⟨_, hsprop⟩ := List.mem_filter.mp hs
      rw [decide_eq_true_eq] at hsprop
      right
      rw [hrow]
      exact hsprop.2.1

/-- Witness for C10: the snapshot the engine writes in the concrete
scenario is a new row with nonnegative excess. -/
theorem C10_nonneg_invariants_witness :
    (⟨1, 10, 18 / 100, 12 / 100, 36 / 73, 12 / 73⟩ : InterestSnapshotRow) ∈
      (processDailySnapshot exDB1 rates1).db.interest_snapshots ∧
    ((⟨1, 10, 18 / 100, 12 / 100, 36 / 73, 12 / 73⟩ : InterestSnapshotRow) ∈
        exDB1.interest_snapshots ∨
      0 ≤ (⟨1, 10, 18 / 100, 12 / 100, 36 / 73, 12 / 73⟩ :
        InterestSnapshotRow).interest_above_cap) := by
  have hmem : (⟨1, 10, 18 / 100, 12 / 100, 36 / 73, 12 / 73⟩ : InterestSnapshotRow) ∈
      (processDailySnapshot exDB1 rates1).db.interest_snapshots := by
    with_unfolding_all decide
  exact ⟨hmem, (C10_nonneg_invariants exDB1 rates1 10).1 _ hmem⟩

/-! ## Claim C9 -/

/-- Claim C9, counterexample: with two failed reimbursements — id 1 created
day 1 but failed day 5, id 2 created day 2 but failed day 3 — a retry with
limit 1 resets id 2 (the most recently CREATED) and leaves id 1 (the most
recently FAILED) failed, so rows are not selected most-recently-failed
first. -/
theorem C9_counterexample :
    exDB9.reimbursements.map (fun r => (r.id, r.status, r.processed_at)) =
      [(1, RStatus.failed, some 5), (2, RStatus.failed, some 3)] ∧
    ((retryFailedReimbursements exDB9 1).1.reimbursements.filter
      (fun r => r.status == .pending)).map (fun r => r.id) = [2] ∧
    ((retryFailedReimbursements exDB9 1).1.reimbursements.filter
      (fun r => r.status == .failed)).map (fun r => r.id) = [1] ∧
    (3 : Nat) < 5 := by
  with_unfolding_all decide

/-- Claim C9 as amended: `retryFailedReimbursements` resets at most `limit`
rows; the selected ids all belong to failed rows, chosen
most-recently-CREATED first among the failed; each selected failed row
reappears with status pending and `tx_hash`/`processed_at` cleared and all
its other fields intact; every other row is unchanged; no payment reference
is produced; and the return value is the number of rows reset. -/
theorem C9_amended_retry (db : DB) (limit : Nat)
    (hnd : (db.reimbursements.map (fun r => r.id)).Nodup) :
    (retryFailedReimbursements db limit).2 ≤ limit ∧
    (∀ i ∈ retrySelectedIds db limit, ∃ r ∈ db.reimbursements,
      r.id = i ∧ r.status = .failed) ∧
    (∀ r ∈ db.reimbursements, r.status = .failed → r.id ∈ retrySelectedIds db limit →
      { r with status := RStatus.pending, tx_hash := none, processed_at := none } ∈
        (retryFailedReimbursements db limit).1.reimbursements) ∧
    (∀ r ∈ db.reimbursements, ¬(r.status = .failed ∧ r.id ∈ retrySelectedIds db limit) →
      r ∈ (retryFailedReimbursements db limit).1.reimbursements) ∧
    (∀ r ∈ db.reimbursements, r.status = .failed → r.id ∉ retrySelectedIds db limit →
      ∀ q ∈ db.reimbursements, q.id ∈ retrySelectedIds db limit →
        r.created_at ≤ q.created_at) ∧
    (∀ r ∈ (retryFailedReimbursements db limit).1.reimbursements,
      r ∈ db.reimbursements ∨ r.tx_hash = none) ∧
    (retryFailedReimbursements db limit).2 =
      (db.reimbursements.filter (fun r =>
        decide (r.status = .failed ∧ r.id ∈ retrySelectedIds db limit))).length := by
  have hperm : ((db.reimbursements.filter (fun r => decide (r.status = .failed))
      ).insertionSort createdGe).Perm
      (db.reimbursements.filter (fun r => decide (r.status = .failed))) :=
    List.perm_insertionSort createdGe _
  refine ⟨?_, ?_, ?_, ?_, ?_, ?_, rfl⟩
  · -- count ≤ limit
    have h1 : ((db.reimbursements.filter (fun r =>
        decide (r.status = .failed ∧ r.id ∈ retrySelectedIds db limit))).map
          (fun r => r.id)).Nodup :=
      hnd.sublist ((List.filter_sublist _).map _)
    have h2 : ((db.reimbursements.filter (fun r =>
        decide (r.status = .failed ∧ r.id ∈ retrySelectedIds db limit))).map
          (fun r => r.id)) ⊆ retrySelectedIds db limit := by
      intro x hx
      obtain ⟨r, hr, hrx⟩ := List.mem_map.mp hx
      have := (List.mem_filter.mp hr).2
      rw [decide_eq_true_eq] at this
      exact hrx ▸ this.2
    calc (retryFailedReimbursements db limit).2
        = ((db.reimbursements.filter (fun r =>
            decide (r.status = .failed ∧ r.id ∈ retrySelectedIds db limit))).map
              (fun r => r.id)).length := by
          rw [List.length_map]
          rfl
      _ ≤ (retrySelectedIds db limit).length :=
          (List.subperm_of_subset h1 h2).length_le
      _ ≤ limit := by
          rw [retrySelectedIds, List.length_map]
          exact List.length_take_le _ _
  · -- selected ids are failed rows' ids
    intro i hi
    obtain ⟨a, ha, hai⟩ := List.mem_map.mp hi
    have ha' : a ∈ db.reimbursements.filter (fun r => decide (r.status = .failed)) :=
      hperm.mem_iff.mp (List.take_subset _ _ ha)
    obtain ⟨ham, hast⟩ := List.mem_filter.mp ha'
    rw [decide_eq_true_eq] at hast
    exact ⟨a, ham, hai, hast⟩
  · -- selected failed rows are reset
    intro r hr hst hid
    refine List.mem_map.mpr ⟨r, hr, ?_⟩
    rw [if_pos ⟨hst, hid⟩]
  · -- other rows unchanged
    intro r hr hnot
    refine List.mem_map.mpr ⟨r, hr, ?_⟩
    rw [if_neg hnot]
  · -- selection is most-recently-created first among failed
    intro r hr hst hnotsel q hq hqsel
    unfold retrySelectedIds at hnotsel hqsel
    obtain ⟨a, ha, hai⟩ := List.mem_map.mp hqsel
    have ha' : a ∈ db.reimbursements :=
      (List.mem_filter.mp (hperm.mem_iff.mp (List.take_subset _ _ ha))).1
    have hqa : q = a := List.inj_on_of_nodup_map hnd hq ha' hai.symm
    subst hqa
    have hrf : r ∈ (db.reimbursements.filter (fun r => decide (r.status = .failed))
        ).insertionSort createdGe :=
      hperm.mem_iff.mpr (List.mem_filter.mpr ⟨hr, by rw [decide_eq_true_eq]; exact hst⟩)
    have happ := List.take_append_drop limit
      ((db.reimbursements.filter (fun r => decide (r.status = .failed))
        ).insertionSort createdGe)
    have hr2 : r ∈ ((db.reimbursements.filter (fun r => decide (r.status = .failed))
          ).insertionSort createdGe).take limit ++
        ((db.reimbursements.filter (fun r => decide (r.status = .failed))
          ).insertionSort createdGe).drop limit := by
      rw [happ]
      exact hrf
    have hsp : List.Pairwise createdGe
        (((db.reimbursements.filter (fun r => decide (r.status = .failed))
            ).insertionSort createdGe).take limit ++
          ((db.reimbursements.filter (fun r => decide (r.status = .failed))
            ).insertionSort createdGe).drop limit) := by
      rw [happ]
      exact List.sorted_insertionSort createdGe _
    rcases List.mem_append.mp hr2 with h | h
    · exact absurd (List.mem_map.mpr ⟨r, h, rfl⟩) hnotsel
    · exact (List.pairwise_append.mp hsp).2.2 q ha r h
  · -- no payment reference produced
    intro r hr
    obtain ⟨q, hq, hqr⟩ := List.mem_map.mp hr
    by_cases h : q.status = .failed ∧ q.id ∈ retrySelectedIds db limit
    · rw [if_pos h] at hqr
      exact Or.inr (by rw [← hqr])
    · rw [if_neg h] at hqr
      exact Or.inl (hqr ▸ hq)

/-- Witness for C9 as amended: the id-uniqueness hypothesis holds at the
fixture, and the count bound follows from the theorem there. -/
theorem C9_amended_retry_witness :
    (exDB9.reimbursements.map (fun r => r.id)).Nodup ∧
    (retryFailedReimbursements exDB9 1).2 ≤ 1 :=
  ⟨by with_unfolding_all decide,
    (C9_amended_retry exDB9 1 (by with_unfolding_all decide)).1⟩

/-! ## Claim C8: prefetched-balance compounding -/

/-- SQL row lookup by primary key. -/
def lookupPos (l : List BorrowerPosition) (i : Nat) : Option BorrowerPosition :=
  l.find? (fun q => q.id == i)

theorem lookupPos_of_nodup (l : List BorrowerPosition) (p : BorrowerPosition)
    (hnd : (l.map (fun q => q.id)).Nodup) (hp : p ∈ l) :
    lookupPos l p.id = some p := by
  induction l with
  | nil => exact absurd hp (List.not_mem_nil p)
  | cons q l ih =>
    rcases List.mem_cons.mp hp with rfl | hp'
    · simp [lookupPos, List.find?]
    · have hq : q.id ≠ p.id := by
        intro hiq
        have : p.id ∈ l.map (fun q => q.id) := List.mem_map.mpr ⟨p, hp', rfl⟩
        rw [List.map_cons] at hnd
        exact (List.nodup_cons.mp hnd).1 (hiq ▸ this)
      have := ih (List.nodup_cons.mp (List.map_cons _ q l ▸ hnd)).2 hp'
      simpa [lookupPos, List.find?, beq_eq_false_iff_ne.mpr hq] using this

theorem lookupPos_map_update (l : List BorrowerPosition) (i j : Nat) (d : ℚ) :
    lookupPos (l.map (fun q => if q.id = i then { q with current_debt := d } else q)) j =
      (lookupPos l j).map (fun q => if q.id = i then { q with current_debt := d } else q) := by
  induction l with
  | nil => rfl
  | cons q l ih =>
    have hid : (if q.id = i then { q with current_debt := d } else q).id = q.id := by
      split <;> rfl
    by_cases hj : q.id == j
    · simp [lookupPos, List.find?, hid, hj]
    · simp only [List.map_cons, lookupPos, List.find?, hid, hj]
      exact ih

theorem lookupPos_eq_some_id (l : List BorrowerPosition) (j : Nat) (q : BorrowerPosition)
    (h : lookupPos l j = some q) : q.id = j := by
  have := List.find?_some h
  simpa using this

/-- Processing one position never changes any other position's row. -/
theorem processPosition_lookup_ne (db db' : DB) (rates : String → RateResponse)
    (p : BorrowerPosition) (j : Nat) (h : processPosition db rates p = .ok db')
    (hj : j ≠ p.id) : lookupPos db'.positions j = lookupPos db.positions j := by
  rcases processPosition_ok_cases db db' rates p h with rfl | ⟨st, _, rfl⟩
  · rfl
  · rw [processPositionOk_positions, lookupPos_map_update]
    cases hq : lookupPos db.positions j with
    | none => rfl
    | some q =>
      have hqid := lookupPos_eq_some_id _ _ _ hq
      have hne : q.id ≠ p.id := by rw [hqid]; exact hj
      simp [hne]

theorem runPositions_lookup_ne (rates : String → RateResponse)
    (ps : List BorrowerPosition) : ∀ (db : DB) (j : Nat), (∀ q ∈ ps, q.id ≠ j) →
    lookupPos (runPositions rates db ps).1.positions j = lookupPos db.positions j := by
  induction ps with
  | nil => intro db j _; rfl
  | cons q ps ih =>
    intro db j hne
    cases hq : processPosition db rates q with
    | error e =>
      simp only [runPositions, hq]
      exact ih db j (fun q' hq' => hne q' (List.mem_cons_of_mem _ hq'))
    | ok db1 =>
      simp only [runPositions, hq]
      rw [ih db1 j (fun q' hq' => hne q' (List.mem_cons_of_mem _ hq'))]
      exact processPosition_lookup_ne db db1 rates q j hq
        (fun hc => hne q (List.mem_cons_self _ _) hc.symm)

/-- Through the whole per-position loop, a position processed with a market
state ends with its debt compounded from its PREFETCHED balance. -/
theorem runPositions_lookup (rates : String → RateResponse)
    (ps : List BorrowerPosition) : ∀ (db : DB) (p : BorrowerPosition) (st : MState),
    p ∈ ps → (ps.map (fun q => q.id)).Nodup →
    rates p.market_id = RateResponse.ok { state := some st } →
    lookupPos db.positions p.id = some p →
    lookupPos (runPositions rates db ps).1.positions p.id =
      some { p with current_debt :=
        p.current_debt + dailyAccrued p.current_debt st.borrowApy } := by
  induction ps with
  | nil => intro db p st hp _ _ _; exact absurd hp (List.not_mem_nil p)
  | cons q ps ih =>
    intro db p st hp hnd hr hl
    rcases List.mem_cons.mp hp with rfl | hp'
    · have hok := processPosition_eq_ok db rates p st hr
      simp only [runPositions, hok]
      have hstep : lookupPos (processPositionOk db p st).positions p.id =
          some { p with current_debt :=
            p.current_debt + dailyAccrued p.current_debt st.borrowApy } := by
        rw [processPositionOk_positions, lookupPos_map_update, hl]
        simp
      rw [runPositions_lookup_ne rates ps _ p.id ?hids, hstep]
      case hids =>
        intro q' hq' hc
        have : p.id ∈ ps.map (fun q => q.id) := List.mem_map.mpr ⟨q', hq', hc⟩
        rw [List.map_cons] at hnd
        exact (List.nodup_cons.mp hnd).1 this
    · have hqp : q.id ≠ p.id := by
        intro hc
        have : p.id ∈ ps.map (fun q => q.id) := List.mem_map.mpr ⟨p, hp', rfl⟩
        rw [List.map_cons] at hnd
        exact (List.nodup_cons.mp hnd).1 (hc ▸ this)
      have hndtail : (ps.map (fun q => q.id)).Nodup := by
        rw [List.map_cons] at hnd
        exact (List.nodup_cons.mp hnd).2
      cases hq : processPosition db rates q with
      | error e =>
        simp only [runPositions, hq]
        exact ih db p st hp' hndtail hr hl
      | ok db1 =>
        simp only [runPositions, hq]
        refine ih db1 p st hp' hndtail hr ?_
        rw [processPosition_lookup_ne db db1 rates q p.id hq (fun hc => hqp hc.symm)]
        exact hl

theorem runPositions_allocations (rates : String → RateResponse)
    (ps : List BorrowerPosition) : ∀ db : DB,
    (runPositions rates db ps).1.allocations = db.allocations := by
  induction ps with
  | nil => intro db; rfl
  | cons p ps ih =>
    intro db
    cases hp : processPosition db rates p with
    | error e => simp only [runPositions, hp]; exact ih db
    | ok db1 =>
      simp only [runPositions, hp]
      rw [ih db1]
      rcases processPosition_ok_cases db db1 rates p hp with rfl | ⟨st, _, rfl⟩
      · rfl
      · exact (processPositionOk_frame db p st).2.2.1

theorem runAllocations_allocations (rates : String → RateResponse)
    (as' : List (VaultAllocation × Market)) : ∀ db : DB,
    (runAllocations rates db as').1.allocations = db.allocations := by
  induction as' with
  | nil => intro db; rfl
  | cons a as' ih =>
    intro db
    cases ha : processAllocation db rates a with
    | error e => simp only [runAllocations, ha]; exact ih db
    | ok db1 =>
      simp only [runAllocations, ha]
      rw [ih db1]
      rcases processAllocation_ok_cases db db1 rates a ha with rfl | ⟨st, _, rfl⟩ <;> rfl

/-- Claim C8: a borrower position processed in a run ends with
`current_debt` equal to its pre-run value plus the accrual computed from
that same pre-run value (no read-after-write within the run), and neither
engine writes the vault allocations (`supply_assets` is never compounded). -/
theorem C8_debt_compound (db : DB) (rates : String → RateResponse)
    (p : BorrowerPosition) (st : MState)
    (hnd : (db.positions.map (fun q => q.id)).Nodup)
    (hp : p ∈ db.positions) (hact : p.status = "active")
    (hmkt : ∃ m ∈ db.markets, m.market_id = p.market_id)
    (hr : rates p.market_id = RateResponse.ok { state := some st }) :
    lookupPos (processDailySnapshot db rates).db.positions p.id =
      some { p with current_debt :=
        p.current_debt + dailyAccrued p.current_debt st.borrowApy } ∧
    (processDailySnapshot db rates).db.allocations = db.allocations ∧
    (processDailySupplySnapshots db rates).db.allocations = db.allocations := by
  have hfilter : p ∈ db.positions.filter (fun p =>
      p.status == "active" && db.markets.any (fun m => m.market_id == p.market_id)) := by
    refine List.mem_filter.mpr ⟨hp, ?_⟩
    obtain ⟨m, hm, hmid⟩ := hmkt
    rw [Bool.and_eq_true]
    exact ⟨by simp [hact], List.any_eq_true.mpr ⟨m, hm, by simp [hmid]⟩⟩
  have hperm : (getActivePositions db).Perm (db.positions.filter (fun p =>
      p.status == "active" && db.markets.any (fun m => m.market_id == p.market_id))) :=
    List.perm_insertionSort posIdLe _
  have hmem : p ∈ getActivePositions db := hperm.mem_iff.mpr hfilter
  have hndact : ((getActivePositions db).map (fun q => q.id)).Nodup := by
    have h1 : ((db.positions.filter (fun p =>
        p.status == "active" && db.markets.any (fun m => m.market_id == p.market_id))).map
          (fun q => q.id)).Nodup :=
      hnd.sublist ((List.filter_sublist _).map _)
    exact ((hperm.map (fun q => q.id)).nodup_iff).mpr h1
  refine ⟨?_, ?_, ?_⟩
  · exact runPositions_lookup rates (getActivePositions db) db p st hmem hndact hr
      (lookupPos_of_nodup db.positions p hnd hp)
  · exact runPositions_allocations rates (getActivePositions db) db
  · exact runAllocations_allocations rates (getActiveVaultAllocations db) db

/-- Witness for C8: all hypotheses hold at the concrete fixture, where the
single position's debt compounds from 1000 by 1000 * (0.18 / 365). -/
theorem C8_debt_compound_witness :
    (exDB1.positions.map (fun q => q.id)).Nodup ∧
    (⟨1, "m1", 1000, "active"⟩ : BorrowerPosition) ∈ exDB1.positions ∧
    (∃ m ∈ exDB1.markets, m.market_id = "m1") ∧
    lookupPos (processDailySnapshot exDB1 rates1).db.positions 1 =
      some ⟨1, "m1", 1000 + dailyAccrued 1000 (18 / 100), "active"⟩ := by
  refine ⟨by with_unfolding_all decide, by with_unfolding_all decide,
    ⟨exMarket, by with_unfolding_all decide, rfl⟩, ?_⟩
  exact (C8_debt_compound exDB1 rates1 ⟨1, "m1", 1000, "active"⟩ ⟨18 / 100, 20 / 100⟩
    (by with_unfolding_all decide) (by with_unfolding_all decide) rfl
    ⟨exMarket, by with_unfolding_all decide, rfl⟩ rfl).1

/-! ## Claim C1: upsert key uniqueness -/

theorem saveSupplySnapshot_nodup (l : List SupplySnapshotRow) (row : SupplySnapshotRow)
    (h : (l.map supplyKey).Nodup) :
    ((saveSupplySnapshot l row).map supplyKey).Nodup := by
  unfold saveSupplySnapshot
  split
  · have hkeys : (l.map (fun s => if supplyKey s == supplyKey row then row else s)).map
        supplyKey = l.map supplyKey := by
      rw [List.map_map]
      apply List.map_congr_left
      intro s _
      by_cases hk : (supplyKey s == supplyKey row) = true
      · simp only [Function.comp]
        rw [if_pos hk]
        exact (eq_of_beq hk).symm
      · simp only [Function.comp]
        rw [if_neg hk]
    rw [hkeys]
    exact h
  · next hany =>
    have hnotin : supplyKey row ∉ l.map supplyKey := by
      intro hmem
      obtain ⟨s, hs, hseq⟩ := List.mem_map.mp hmem
      exact hany (List.any_eq_true.mpr ⟨s, hs, beq_iff_eq.mpr hseq⟩)
    rw [List.map_append]
    simp [List.nodup_append, h, hnotin]

theorem runAllocations_supply_nodup (rates : String → RateResponse)
    (as' : List (VaultAllocation × Market)) : ∀ db : DB,
    (db.supply_snapshots.map supplyKey).Nodup →
    ((runAllocations rates db as').1.supply_snapshots.map supplyKey).Nodup := by
  induction as' with
  | nil => intro db h; exact h
  | cons a as' ih =>
    intro db h
    cases ha : processAllocation db rates a with
    | error e => simp only [runAllocations, ha]; exact ih db h
    | ok db1 =>
      simp only [runAllocations, ha]
      refine ih db1 ?_
      rcases processAllocation_ok_cases db db1 rates a ha with rfl | ⟨st, _, rfl⟩
      · exact h
      · exact saveSupplySnapshot_nodup _ _ h

theorem runPositions_supply (rates : String → RateResponse)
    (ps : List BorrowerPosition) : ∀ db : DB,
    (runPositions rates db ps).1.supply_snapshots = db.supply_snapshots := by
  induction ps with
  | nil => intro db; rfl
  | cons p ps ih =>
    intro db
    cases hp : processPosition db rates p with
    | error e => simp only [runPositions, hp]; exact ih db
    | ok db1 =>
      simp only [runPositions, hp]
      rw [ih db1]
      rcases processPosition_ok_cases db db1 rates p hp with rfl | ⟨st, _, rfl⟩
      · rfl
      · exact (processPositionOk_frame db p st).2.2.2.1

/-- One full daily cycle (supply phase then borrower phase) preserves
uniqueness of the (vault, market, day) supply snapshot key. -/
theorem runDailyCycle_supply_nodup (db : DB) (rates : String → RateResponse)
    (h : (db.supply_snapshots.map supplyKey).Nodup) :
    ((runDailyCycle db rates).2.db.supply_snapshots.map supplyKey).Nodup := by
  have h1 : ((processDailySupplySnapshots db rates).db.supply_snapshots.map supplyKey).Nodup :=
    runAllocations_supply_nodup rates (getActiveVaultAllocations db) db h
  have h2 : (runDailyCycle db rates).2.db.supply_snapshots =
      (processDailySupplySnapshots db rates).db.supply_snapshots :=
    runPositions_supply rates _ _
  rw [h2]
  exact h1

/-- Claim C1 as amended: the vault supply snapshot key stays unique across
two full daily cycles (the upsert never duplicates), and concretely two
cycles on the fixture leave exactly one supply snapshot row carrying the
computed fields while the borrower interest path has inserted two duplicate
(position 1, day 10) rows. -/
theorem C1_amended_upsert (db : DB) (rates : String → RateResponse)
    (h : (db.supply_snapshots.map supplyKey).Nodup) :
    ((runDailyCycle (runDailyCycle db rates).2.db rates).2.db.supply_snapshots.map
      supplyKey).Nodup ∧
    (runDailyCycle (runDailyCycle exDB1 rates1).2.db rates1).2.db.supply_snapshots =
      [{ vault_id := 1, market_id := "m1", snapshot_date := 10, supply_amount := 500,
         supply_apy := 20 / 100, capped_apy := 12 / 100,
         interest_earned := dailyAccrued 500 (20 / 100),
         interest_above_cap := aboveCapAmount 500 (20 / 100) (12 / 100),
         loan_asset := "WETH" }] ∧
    ((runDailyCycle (runDailyCycle exDB1 rates1).2.db rates1).2.db.interest_snapshots.map
      (fun s => (s.position_id, s.snapshot_date))) = [(1, 10), (1, 10)] := by
  refine ⟨runDailyCycle_supply_nodup _ rates (runDailyCycle_supply_nodup db rates h),
    ?_, ?_⟩
  · with_unfolding_all decide
  · with_unfolding_all decide

/-- Witness for C1 as amended: the key-uniqueness hypothesis holds at the
fixture (whose snapshot table starts empty) and is preserved across the two
cycles. -/
theorem C1_amended_upsert_witness :
    (exDB1.supply_snapshots.map supplyKey).Nodup ∧
    ((runDailyCycle (runDailyCycle exDB1 rates1).2.db rates1).2.db.supply_snapshots.map
      supplyKey).Nodup :=
  ⟨by with_unfolding_all decide,
    (C1_amended_upsert exDB1 rates1 (by with_unfolding_all decide)).1⟩
